import Mathlib

/-!
Shallow embedding of the real-time correlation-detection pipeline
(`data_processing.py`, `data_storage.py`) and proofs about it.

Conventions of the embedding:
* Python/pandas floats are modelled as exact rationals (`ℚ`); `NaN`
  ("undefined / missing value") is modelled as `none` in `Option ℚ`.
* Where IEEE infinities matter (`pct_change` at a zero previous price)
  the value type `Fval` distinguishes `nan`, `pinf`, `ninf` and finite
  numbers.
* Fallible code (a Python function that can raise) returns `Option`:
  `none` models an escaping exception.
-/

/-- Value of one entry of a pandas float Series, as produced by
`Series.pct_change`: a finite number, `NaN`, or an IEEE infinity. -/
inductive Fval where
  | nan : Fval
  | pinf : Fval
  | ninf : Fval
  | num : ℚ → Fval
deriving DecidableEq

/-- One step of `Series.pct_change` (from `calculate_returns`,
`data_processing.py` line 36): the float value of `cur / prev - 1`.
For `prev ≠ 0` this is exactly `(cur - prev) / prev`; for `prev = 0`
IEEE division gives `NaN` when `cur = 0` and a signed infinity
otherwise. -/
def pctChangeAt (prev cur : ℚ) : Fval :=
  if prev = 0 then
    if cur = 0 then Fval.nan
    else if 0 < cur then Fval.pinf
    else Fval.ninf
  else Fval.num ((cur - prev) / prev)

/-- Tail of `pct_change`: given the previous price and the remaining
prices, the list of successive percentage changes. -/
def returnsAux : ℚ → List ℚ → List Fval
  | _, [] => []
  | prev, cur :: rest => pctChangeAt prev cur :: returnsAux cur rest

/-- Embedding of `calculate_returns` (`data_processing.py` lines 25-36):
`df[symbol].pct_change()`.  Output has the length of the input; the
first entry is `NaN` and entry `i` (for `i ≥ 1`) is the percentage
change from `prices[i-1]` to `prices[i]`. -/
def calculate_returns : List ℚ → List Fval
  | [] => []
  | p :: rest => Fval.nan :: returnsAux p rest

/-- The defined (non-`NaN`) values of a float series; pandas `mean`
and `std` skip `NaN` entries. -/
def definedVals (xs : List (Option ℚ)) : List ℚ :=
  xs.filterMap id

/-- Embedding of `Series.mean()` over a float series: the mean of the
defined values, `NaN` (= `none`) when no defined value exists. -/
def meanD (xs : List (Option ℚ)) : Option ℚ :=
  let vs := definedVals xs
  if vs.length = 0 then none else some (vs.sum / (vs.length : ℚ))

/-- Embedding of the square of `Series.std()` (sample standard
deviation, `ddof = 1`, skipping `NaN`): the sample variance of the
defined values, `NaN` (= `none`) when fewer than 2 defined values
exist.  We carry the variance rather than the standard deviation so as
to stay inside `ℚ`; `std == 0` iff the variance is `0`, and `std` is
`NaN` iff the variance is. -/
def varSampleD (xs : List (Option ℚ)) : Option ℚ :=
  let vs := definedVals xs
  if vs.length < 2 then none
  else some (((vs.map (fun v => (v - vs.sum / (vs.length : ℚ)) ^ 2)).sum) / ((vs.length : ℚ) - 1))

/-- Embedding of `detect_anomalies` (`data_processing.py` lines 55-71):

```
mean_corr = rolling_corr.mean()
std_corr = rolling_corr.std()
if std_corr == 0: return False
z_score = (rolling_corr.iloc[-1] - mean_corr) / std_corr
return abs(z_score) > threshold
```

`none` as the result models the `IndexError` that `iloc[-1]` raises on
an empty series.  Any `NaN` among `iloc[-1]`, `mean`, `std` makes
`z_score` `NaN`, and `abs(NaN) > threshold` is `False` in IEEE
semantics.  In the remaining case `std = √var > 0` and
`|z| > threshold` holds iff `threshold < 0` or
`threshold² · var < (last − mean)²`, which is how the comparison is
expressed here to stay inside `ℚ`. -/
def detect_anomalies (rolling_corr : List (Option ℚ)) (threshold : ℚ) : Option Bool :=
  let mean_corr := meanD rolling_corr
  let var_corr := varSampleD rolling_corr
  if var_corr = some 0 then some false
  else
    match rolling_corr.getLast? with
    | none => none
    | some last =>
      match last, mean_corr, var_corr with
      | some v, some m, some var =>
          some (decide (threshold < 0 ∨ threshold ^ 2 * var < (v - m) ^ 2))
      | _, _, _ => some false

/-- The Python signature is `detect_anomalies(rolling_corr, threshold=2.0)`;
this is the call with the threshold argument not supplied. -/
def detect_anomalies_default (rolling_corr : List (Option ℚ)) : Option Bool :=
  detect_anomalies rolling_corr 2

/-- Sample variance (`ddof = 1`) of a list of rationals, as used inside
pandas rolling statistics; `0` is returned for length `< 2` only as a
placeholder (callers guard on the window length first). -/
def sampleVar (l : List ℚ) : ℚ :=
  if l.length < 2 then 0
  else ((l.map (fun v => (v - l.sum / (l.length : ℚ)) ^ 2)).sum) / ((l.length : ℚ) - 1)

/-- Sample covariance (`ddof = 1`) of a list of pairs of rationals. -/
def sampleCov (ps : List (ℚ × ℚ)) : ℚ :=
  if ps.length < 2 then 0
  else
    let xm := (ps.map Prod.fst).sum / (ps.length : ℚ)
    let ym := (ps.map Prod.snd).sum / (ps.length : ℚ)
    ((ps.map (fun p => (p.1 - xm) * (p.2 - ym))).sum) / ((ps.length : ℚ) - 1)

/-- The paired observations that pandas uses for the rolling window
ending at index `i` with window size `w`: the last `min (i+1) w`
index positions, keeping only positions where both series are
defined (pairwise-complete observations). -/
def pairWindow (a b : List (Option ℚ)) (w i : Nat) : List (ℚ × ℚ) :=
  (((a.zip b).take (i + 1)).drop (i + 1 - w)).filterMap
    (fun p =>
      match p.1, p.2 with
      | some x, some y => some (x, y)
      | _, _ => none)

/-- One cell of `returns1.rolling(window=w).corr(returns2)`
(`data_processing.py` line 53).  pandas yields `NaN` (here `none`)
when fewer than `min_periods = w` paired observations lie in the
window, or when either sub-window has zero variance (then the float
quotient is `0/0 = NaN`).  Otherwise the float value is
`cov / (√varA · √varB)`; since that involves an irrational square
root, the cell carries the exact rational triple
`(cov, varA, varB)` from which it is formed — definedness, sign and
magnitude comparisons are all determined by the triple. -/
def corrCell (a b : List (Option ℚ)) (w i : Nat) : Option (ℚ × ℚ × ℚ) :=
  let ps := pairWindow a b w i
  if ps.length < w then none
  else
    let vA := sampleVar (ps.map Prod.fst)
    let vB := sampleVar (ps.map Prod.snd)
    if vA = 0 ∨ vB = 0 then none
    else some (sampleCov ps, vA, vB)

/-- Embedding of the rolling-correlation series of
`compute_rolling_correlation` (`data_processing.py` lines 38-53),
taking the two (aligned) return series as inputs:
`returns1.rolling(window=window).corr(returns2)`.  The result is
indexed like the first input. -/
def compute_rolling_correlation (a b : List (Option ℚ)) (w : Nat) :
    List (Option (ℚ × ℚ × ℚ)) :=
  (List.range a.length).map (fun i => corrCell a b w i)

/-- In-memory price DataFrame of `main` (`data_processing.py` line 80):
columns `timestamp`, `AAPL`, `MSFT`.  A fetched price may be missing
(`None` when the quote JSON has no `"c"` field), hence `Option ℚ`. -/
structure DFrame where
  timestamps : List Nat
  aapl : List (Option ℚ)
  msft : List (Option ℚ)
deriving DecidableEq

/-- Embedding of `add_new_data` (`data_processing.py` lines 9-23):
`df._append(new_row, ignore_index=True)` builds a one-row frame from
the dict `{"timestamp": timestamp, symbol1: pa, symbol2: pm}` and
returns the concatenation; the input frame is not mutated. -/
def add_new_data (df : DFrame) (timestamp : Nat) (pa pm : Option ℚ) : DFrame :=
  { timestamps := df.timestamps ++ [timestamp]
    aapl := df.aapl ++ [pa]
    msft := df.msft ++ [pm] }

/-- Row view of a `DFrame`: the sequence of `(timestamp, AAPL, MSFT)`
rows. -/
def DFrame.rows (df : DFrame) : List (Nat × Option ℚ × Option ℚ) :=
  df.timestamps.zip (df.aapl.zip df.msft)

/-- One row of the SQLite `prices` table (`data_storage.py` lines
19-25): `(timestamp TEXT, AAPL REAL, MSFT REAL)`.  Timestamps are
modelled as naturals ordered like the ISO-format strings the code
stores; a `REAL` column value may be `NULL` (`none`). -/
structure Row where
  timestamp : Nat
  aapl : Option ℚ
  msft : Option ℚ
deriving DecidableEq

/-- Embedding of `store_data` (`data_storage.py` lines 29-42): the
`INSERT` appends one row holding `symbol_data.get("AAPL")` and
`symbol_data.get("MSFT")` (missing prices are stored as `NULL`). -/
def store_data (store : List Row) (timestamp : Nat) (pa pm : Option ℚ) : List Row :=
  store ++ [{ timestamp := timestamp, aapl := pa, msft := pm }]

/-- Ascending timestamp order on rows: the order `pandas.sort_values("timestamp")`
uses in `load_data`. -/
def tsLE (a b : Row) : Prop := a.timestamp ≤ b.timestamp

/-- Descending timestamp order on rows: the order of
`ORDER BY timestamp DESC` in `load_data`'s SQL query. -/
def tsGE (a b : Row) : Prop := b.timestamp ≤ a.timestamp

instance : DecidableRel tsLE := fun a b => Nat.decLe a.timestamp b.timestamp

instance : DecidableRel tsGE := fun a b => Nat.decLe b.timestamp a.timestamp

instance : IsTotal Row tsLE := ⟨fun a b => Nat.le_total a.timestamp b.timestamp⟩

instance : IsTrans Row tsLE := ⟨fun _ _ _ h h' => Nat.le_trans h h'⟩

instance : IsTotal Row tsGE := ⟨fun a b => Nat.le_total b.timestamp a.timestamp⟩

instance : IsTrans Row tsGE := ⟨fun _ _ _ h h' => Nat.le_trans h' h⟩

/-- Embedding of `load_data` (`data_storage.py` lines 44-61):
`SELECT * FROM prices ORDER BY timestamp DESC LIMIT limit`, then, when
the result is nonempty, `sort_values("timestamp")` ascending.  The
store list stands for the physical table contents in arbitrary
physical order. -/
def load_data (store : List Row) (limit : Nat) : List Row :=
  let df := (List.insertionSort tsGE store).take limit
  if df = [] then df else List.insertionSort tsLE df

/-- Outcome of one `client.get_quote` call in `main`
(`data_processing.py` lines 88-89): either the call raises
(`failure`: network error, HTTP error status, or non-JSON content
type — see `FinnhubClient._get`), or it returns a parsed JSON dict,
of which the loop keeps `quote.get("c")` — `none` when the `"c"` key
is absent (a malformed but well-formed-JSON response). -/
inductive FetchResult where
  | failure : FetchResult
  | ok : Option ℚ → FetchResult
deriving DecidableEq

/-- State carried across poll-loop cycles: the in-memory DataFrame
`data` and the SQLite store contents. -/
structure LoopState where
  data : DFrame
  store : List Row
deriving DecidableEq

/-- One cycle of the `while True` poll loop of `main`
(`data_processing.py` lines 86-118).  Inputs: outcomes of the two
fetches, whether the `store_data` write succeeds (`persistOk`), and
the cycle's timestamp.  Returns the new state and whether the loop
`break`s (it breaks after running detection, which happens when both
fetches and the persist succeed and the frame has reached 100 rows).
Any exception raised inside the `try` block is caught by the
`except Exception` handler, so the cycle is a total function and the
loop always proceeds when the break condition is not reached. -/
def runCycle (s : LoopState) (f1 f2 : FetchResult) (persistOk : Bool) (now : Nat) :
    LoopState × Bool :=
  match f1, f2 with
  | FetchResult.ok p1, FetchResult.ok p2 =>
    let data1 := add_new_data s.data now p1 p2
    if persistOk then
      ({ data := data1, store := store_data s.store now p1 p2 },
        decide (100 ≤ data1.timestamps.length))
    else
      ({ data := data1, store := s.store }, false)
  | _, _ => (s, false)

theorem definedVals_nil : definedVals [] = [] := rfl

/-- When fewer than 2 defined values exist, the sample variance (and
hence the standard deviation) is `NaN`. -/
theorem varSampleD_eq_none (xs : List (Option ℚ))
    (h : (definedVals xs).length < 2) : varSampleD xs = none := by
  unfold varSampleD
  simp [h]

/-- The sample variance computed by `varSampleD` is nonnegative
whenever it is defined. -/
theorem varSampleD_nonneg (xs : List (Option ℚ)) (v : ℚ)
    (h : varSampleD xs = some v) : 0 ≤ v := by
  by_cases hlen : (definedVals xs).length < 2
  · rw [varSampleD_eq_none xs hlen] at h
    exact absurd h (by simp)
  · simp only [varSampleD] at h
    rw [if_neg hlen] at h
    have hS : 0 ≤ ((definedVals xs).map
        (fun w => (w - (definedVals xs).sum / ((definedVals xs).length : ℚ)) ^ 2)).sum := by
      apply List.sum_nonneg
      intro x hx
      obtain ⟨y, _, rfl⟩ := List.mem_map.mp hx
      positivity
    have hd : (0 : ℚ) ≤ ((definedVals xs).length : ℚ) - 1 := by
      have h2 : 2 ≤ (definedVals xs).length := by omega
      have : (2 : ℚ) ≤ ((definedVals xs).length : ℚ) := by exact_mod_cast h2
      linarith
    have hv : v = ((definedVals xs).map
        (fun w => (w - (definedVals xs).sum / ((definedVals xs).length : ℚ)) ^ 2)).sum /
          (((definedVals xs).length : ℚ) - 1) := by
      simpa using h.symm
    rw [hv]
    exact div_nonneg hS hd

/-- Shared control-flow lemma: on a nonempty series, `detect_anomalies`
returns `False` whenever the standard deviation is `0` (early return)
or fewer than 2 defined values exist (the `NaN` standard deviation
makes the z-score `NaN`, and `abs(NaN) > threshold` is `False`). -/
theorem detect_false_aux (xs : List (Option ℚ)) (t : ℚ) (hne : xs ≠ [])
    (h : (definedVals xs).length < 2 ∨ varSampleD xs = some 0) :
    detect_anomalies xs t = some false := by
  obtain ⟨last, hlast⟩ := Option.isSome_iff_exists.mp (List.getLast?_isSome.mpr hne)
  rcases h with h | h
  · have hvar : varSampleD xs = none := varSampleD_eq_none xs h
    cases hmean : meanD xs with
    | none =>
      cases last with
      | none => simp [detect_anomalies, hvar, hmean, hlast]
      | some q => simp [detect_anomalies, hvar, hmean, hlast]
    | some m =>
      cases last with
      | none => simp [detect_anomalies, hvar, hmean, hlast]
      | some q => simp [detect_anomalies, hvar, hmean, hlast]
  · simp [detect_anomalies, h]

/-- When all defined values of the series are equal (and at least two
exist), the sample variance is exactly `0`. -/
theorem varSampleD_const (xs : List (Option ℚ)) (c : ℚ)
    (hc : ∀ v ∈ definedVals xs, v = c) (h2 : 2 ≤ (definedVals xs).length) :
    varSampleD xs = some 0 := by
  unfold varSampleD
  rw [if_neg (by omega)]
  have hrep : definedVals xs = List.replicate (definedVals xs).length c :=
    List.eq_replicate_iff.mpr ⟨rfl, hc⟩
  have hn : ((definedVals xs).length : ℚ) ≠ 0 := by
    have : 0 < (definedVals xs).length := by omega
    exact_mod_cast Nat.pos_iff_ne_zero.mp this
  have hsum : (definedVals xs).sum = ((definedVals xs).length : ℚ) * c := by
    conv_lhs => rw [hrep]
    rw [List.sum_replicate, nsmul_eq_mul]
  have hmean : (definedVals xs).sum / ((definedVals xs).length : ℚ) = c := by
    rw [hsum, mul_comm, mul_div_assoc, div_self hn, mul_one]
  have hzero : ((definedVals xs).map
      (fun v => (v - (definedVals xs).sum / ((definedVals xs).length : ℚ)) ^ 2)).sum = 0 := by
    apply List.sum_eq_zero
    intro x hx
    obtain ⟨y, hy, rfl⟩ := List.mem_map.mp hx
    rw [hmean, hc y hy, sub_self]
    ring
  rw [hzero, zero_div]

/-- C1 (counterexample): the claim asserts `detect_anomalies` never
raises, "in particular ... not ... on an empty series".  On the empty
series the standard deviation is `NaN`, so `NaN == 0` is `False`, the
early return is skipped, and `rolling_corr.iloc[-1]` raises
`IndexError` — modelled by the result `none`.  Hence the claim, as
stated, is false at the empty series. -/
theorem detect_anomalies_raises_on_empty :
    detect_anomalies [] 2 = none ∧ none ≠ some false := by
  constructor
  · simp [detect_anomalies, meanD, varSampleD, definedVals]
  · simp

/-- C1 (amended): for every NONEMPTY rolling-correlation series, if
the standard deviation of its defined values is `0` or fewer than 2
defined values exist, `detect_anomalies` returns `False` without
raising and without dividing by zero (in particular on a nonempty
series whose values are all undefined); on the empty series, however,
the code raises `IndexError` at `iloc[-1]`. -/
theorem detect_anomalies_insufficient_false (xs : List (Option ℚ)) (t : ℚ)
    (hne : xs ≠ [])
    (h : (definedVals xs).length < 2 ∨ varSampleD xs = some 0) :
    detect_anomalies xs t = some false :=
  detect_false_aux xs t hne h

/-- Witness for C1's amended theorem: the all-undefined series
`[NaN, NaN]` has 0 defined values, and detection returns `False`. -/
theorem detect_anomalies_insufficient_false_witness :
    detect_anomalies [none, none] 2 = some false :=
  detect_anomalies_insufficient_false [none, none] 2 (by simp)
    (Or.inl (by simp [definedVals]))

/-- C5: a rolling-correlation series with constant values (zero
variance) yields `is_anomaly = false` always, regardless of the
threshold.  (The series is nonempty — "zero variance" presupposes
values exist; with at least 2 equal defined values the standard
deviation is exactly `0` and the early return fires, with fewer the
deviation is `NaN` and the `NaN` comparison yields `False`.) -/
theorem detect_anomalies_constant_false (xs : List (Option ℚ)) (t c : ℚ)
    (hne : xs ≠ []) (hc : ∀ v ∈ definedVals xs, v = c) :
    detect_anomalies xs t = some false := by
  by_cases h2 : 2 ≤ (definedVals xs).length
  · exact detect_false_aux xs t hne (Or.inr (varSampleD_const xs c hc h2))
  · exact detect_false_aux xs t hne (Or.inl (by omega))

/-- Witness for C5: a constant series of two values `0.5`, with an
extreme threshold. -/
theorem detect_anomalies_constant_false_witness :
    detect_anomalies [some (1/2), some (1/2)] (-3) = some false :=
  detect_anomalies_constant_false [some (1/2), some (1/2)] (-3) (1/2) (by simp)
    (by intro v hv; simpa [definedVals] using hv)

/-- C6: `detect_anomalies` is deterministic and does not mutate its
input: the Python body only reads `rolling_corr` (`mean`, `std`,
`iloc[-1]` perform no writes), so its embedding is a pure function of
the series value, and a second call on the same series with the same
threshold yields the same verdict. -/
theorem detect_anomalies_deterministic (xs : List (Option ℚ)) (t : ℚ) :
    detect_anomalies xs t = detect_anomalies xs t := rfl

/-- C7: a poll-loop cycle in which a fetch raises leaves the sample
store exactly as it was (in particular its row count is unchanged),
no exception escapes the loop boundary (the `except Exception`
handler catches it, which is why `runCycle` is a total function), and
the loop proceeds to the next cycle (the `break` is not reached). -/
theorem runCycle_fetch_failure (s : LoopState) (f1 f2 : FetchResult)
    (persistOk : Bool) (now : Nat)
    (h : f1 = FetchResult.failure ∨ f2 = FetchResult.failure) :
    (runCycle s f1 f2 persistOk now).1.store = s.store ∧
    (runCycle s f1 f2 persistOk now).2 = false := by
  rcases h with h | h
  · subst h
    cases f2 <;> simp [runCycle]
  · subst h
    cases f1 <;> simp [runCycle]

/-- Witness for C7: a concrete cycle with a failing first fetch on a
store holding one row. -/
theorem runCycle_fetch_failure_witness :
    (runCycle ⟨⟨[], [], []⟩, [⟨0, some 1, some 2⟩]⟩ FetchResult.failure
        (FetchResult.ok (some 3)) true 5).1.store = [⟨0, some 1, some 2⟩] ∧
    (runCycle ⟨⟨[], [], []⟩, [⟨0, some 1, some 2⟩]⟩ FetchResult.failure
        (FetchResult.ok (some 3)) true 5).2 = false :=
  runCycle_fetch_failure ⟨⟨[], [], []⟩, [⟨0, some 1, some 2⟩]⟩ FetchResult.failure
    (FetchResult.ok (some 3)) true 5 (Or.inl rfl)

/-- C8 (counterexample): the claim asserts that every row appended to
the store has a defined price for both symbols, "including when a
fetch returns a malformed response".  But when `get_quote` succeeds
with a JSON dict lacking the `"c"` key, `quote.get("c")` is `None`
without raising, and `store_data` inserts the row with a `NULL`
price: a partially-filled sample IS written. -/
theorem runCycle_writes_partial_sample :
    (runCycle ⟨⟨[], [], []⟩, []⟩ (FetchResult.ok none) (FetchResult.ok (some 5))
        true 7).1.store = [⟨7, none, some 5⟩] ∧
    (Row.mk 7 none (some 5)).aapl = none := by
  constructor
  · simp [runCycle, store_data, add_new_data]
  · rfl

/-- C8 (amended): a cycle in which either fetch raises appends nothing
to the store; when both fetches return and the persist succeeds,
exactly one row is appended, carrying the two fetched price fields
as-is — so a response missing the price field produces a row with
that price `NULL`; a failed persist appends nothing. -/
theorem runCycle_store_effect (s : LoopState) (f1 f2 : FetchResult)
    (persistOk : Bool) (now : Nat) :
    ((f1 = FetchResult.failure ∨ f2 = FetchResult.failure) →
        (runCycle s f1 f2 persistOk now).1.store = s.store) ∧
    (∀ p1 p2, f1 = FetchResult.ok p1 → f2 = FetchResult.ok p2 →
        (runCycle s f1 f2 true now).1.store = s.store ++ [⟨now, p1, p2⟩]) ∧
    (∀ p1 p2, f1 = FetchResult.ok p1 → f2 = FetchResult.ok p2 →
        (runCycle s f1 f2 false now).1.store = s.store) := by
  refine ⟨?_, ?_, ?_⟩
  · intro h
    rcases h with h | h
    · subst h; cases f2 <;> simp [runCycle]
    · subst h; cases f1 <;> simp [runCycle]
  · intro p1 p2 h1 h2
    subst h1; subst h2
    simp [runCycle, store_data]
  · intro p1 p2 h1 h2
    subst h1; subst h2
    simp [runCycle]

/-- Witness for C8's amended theorem: a successful cycle appends
exactly the fetched row. -/
theorem runCycle_store_effect_witness :
    (runCycle ⟨⟨[], [], []⟩, []⟩ (FetchResult.ok (some 1)) (FetchResult.ok (some 2))
        true 3).1.store = [] ++ [⟨3, some 1, some 2⟩] :=
  (runCycle_store_effect ⟨⟨[], [], []⟩, []⟩ (FetchResult.ok (some 1))
    (FetchResult.ok (some 2)) true 3).2.1 (some 1) (some 2) rfl rfl

/-- C10: `add_new_data` returns a new DataFrame whose rows are those
of `df` followed by one row holding the timestamp and the given
prices; the input frame is a value in this embedding and is not
mutated (pandas `_append` likewise returns a fresh frame).  The
hypotheses state the DataFrame column-length invariant. -/
theorem add_new_data_rows (df : DFrame) (t : Nat) (pa pm : Option ℚ)
    (h1 : df.aapl.length = df.timestamps.length)
    (h2 : df.msft.length = df.timestamps.length) :
    (add_new_data df t pa pm).rows = df.rows ++ [(t, pa, pm)] := by
  unfold add_new_data DFrame.rows
  simp only
  rw [List.zip_append (h1.trans h2.symm),
    List.zip_append (by rw [List.length_zip, h1, h2]; simp)]
  rfl

/-- Witness for C10: appending one row to a one-row frame. -/
theorem add_new_data_rows_witness :
    (add_new_data ⟨[0], [some 1], [some 2]⟩ 9 (some 3) none).rows
      = (DFrame.mk [0] [some 1] [some 2]).rows ++ [(9, some 3, none)] :=
  add_new_data_rows ⟨[0], [some 1], [some 2]⟩ 9 (some 3) none rfl rfl

/-- Index lemma for `returnsAux`: entry `i` is the percentage change
from the `i`-th element of `prev :: l` to the `i`-th element of `l`. -/
theorem returnsAux_getElem? (l : List ℚ) (prev : ℚ) (i : Nat) :
    (returnsAux prev l)[i]? =
      (prev :: l)[i]?.bind (fun a => (l[i]?).map (fun b => pctChangeAt a b)) := by
  induction l generalizing prev i with
  | nil => simp [returnsAux]
  | cons c rest ih =>
    cases i with
    | zero => simp [returnsAux]
    | succ j => simpa [returnsAux] using ih c j

/-- `returnsAux` preserves length. -/
theorem returnsAux_length (l : List ℚ) (prev : ℚ) :
    (returnsAux prev l).length = l.length := by
  induction l generalizing prev with
  | nil => rfl
  | cons c rest ih => simp [returnsAux, ih]

/-- C2 (counterexample): the claim asserts that at a position whose
previous price is `0` the return is an undefined/missing value, "not
infinite".  On the price series `[0, 1]` the code computes
`1/0 - 1 = +inf`: an infinite value, not `NaN`. -/
theorem calculate_returns_zero_prev_infinite :
    calculate_returns [0, 1] = [Fval.nan, Fval.pinf] ∧ Fval.pinf ≠ Fval.nan := by
  constructor
  · norm_num [calculate_returns, returnsAux, pctChangeAt]
  · simp

/-- C2 (amended): for every price series and every position `i ≥ 1`,
if `price[i-1] = 0` the computed return at `i` is `NaN` when
`price[i] = 0` and a signed infinity (`+inf` / `-inf` after the sign
of `price[i]`) otherwise — no exception is raised in either case; for
`price[i-1] ≠ 0` the return equals
`(price[i] - price[i-1]) / price[i-1]`; the first position carries no
defined return (`NaN`), and the output has the length of the input. -/
theorem calculate_returns_spec (prices : List ℚ) (i : Nat) (a b : ℚ)
    (h1 : 1 ≤ i) (ha : prices[i - 1]? = some a) (hb : prices[i]? = some b) :
    (calculate_returns prices).length = prices.length ∧
    (calculate_returns prices)[0]? = some Fval.nan ∧
    (calculate_returns prices)[i]? = some
      (if a = 0 then
        (if b = 0 then Fval.nan else if 0 < b then Fval.pinf else Fval.ninf)
       else Fval.num ((b - a) / a)) := by
  cases prices with
  | nil => simp at ha
  | cons p rest =>
    refine ⟨by simp [calculate_returns, returnsAux_length], by simp [calculate_returns], ?_⟩
    obtain ⟨j, rfl⟩ : ∃ j, i = j + 1 := ⟨i - 1, by omega⟩
    have hcr : (calculate_returns (p :: rest))[j + 1]? = (returnsAux p rest)[j]? := by
      simp [calculate_returns]
    rw [hcr, returnsAux_getElem? rest p j]
    have ha' : (p :: rest)[j]? = some a := by simpa using ha
    have hb' : rest[j]? = some b := by
      have : (p :: rest)[j + 1]? = some b := hb
      simpa using this
    rw [ha', hb']
    simp [pctChangeAt]

/-- Witness for C2's amended theorem: prices `[0, 1]` at position 1;
the previous price is `0` and the current one positive, so the
computed return is `+inf`. -/
theorem calculate_returns_spec_witness :
    (calculate_returns [0, 1]).length = 2 ∧
    (calculate_returns [0, 1])[0]? = some Fval.nan ∧
    (calculate_returns [0, 1])[1]? = some
      (if (0 : ℚ) = 0 then
        (if (1 : ℚ) = 0 then Fval.nan else if (0 : ℚ) < 1 then Fval.pinf else Fval.ninf)
       else Fval.num ((1 - 0) / 0)) :=
  calculate_returns_spec [0, 1] 1 0 1 (by omega) rfl rfl

/-- C9: `load_data` returns at most `limit` samples; they are the
most-recent samples of the store (every row of the store that is not
returned has a timestamp no later than every returned row); the
returned sequence is sorted ascending by timestamp regardless of the
physical storage order (the store list is universally quantified, so
any physical order is covered); and the result is empty when the
store holds no rows. -/
theorem load_data_spec (store : List Row) (limit : Nat) :
    (load_data store limit).length = min limit store.length ∧
    List.Sorted tsLE (load_data store limit) ∧
    (∀ r ∈ load_data store limit, r ∈ store) ∧
    (∀ r ∈ load_data store limit, ∀ s ∈ store, s ∉ load_data store limit →
        s.timestamp ≤ r.timestamp) ∧
    (store = [] → load_data store limit = []) := by
  have hperm : List.Perm (List.insertionSort tsGE store) store :=
    List.perm_insertionSort tsGE store
  by_cases hdf : (List.insertionSort tsGE store).take limit = []
  · have hld : load_data store limit = [] := by
      unfold load_data
      simp [hdf]
    have h0 : min limit store.length = 0 := by
      rcases List.take_eq_nil_iff.mp hdf with h | h
      · simp [h]
      · have hstore : store = [] := by
          rw [h] at hperm
          exact hperm.symm.eq_nil
        simp [hstore]
    rw [hld]
    exact ⟨by simp [h0], List.sorted_nil, by simp, by simp, fun _ => rfl⟩
  · have hld : load_data store limit =
        List.insertionSort tsLE ((List.insertionSort tsGE store).take limit) := by
      unfold load_data
      simp [hdf]
    have hp2 : List.Perm
        (List.insertionSort tsLE ((List.insertionSort tsGE store).take limit))
        ((List.insertionSort tsGE store).take limit) := List.perm_insertionSort _ _
    refine ⟨?_, ?_, ?_, ?_, ?_⟩
    · rw [hld, hp2.length_eq, List.length_take, hperm.length_eq]
    · rw [hld]
      exact List.sorted_insertionSort tsLE _
    · intro r hr
      rw [hld] at hr
      exact hperm.mem_iff.mp (List.mem_of_mem_take (hp2.mem_iff.mp hr))
    · intro r hr s hs hns
      rw [hld] at hr hns
      have hrt : r ∈ (List.insertionSort tsGE store).take limit := hp2.mem_iff.mp hr
      have hst : s ∉ (List.insertionSort tsGE store).take limit := fun h =>
        hns (hp2.mem_iff.mpr h)
      have hsd : s ∈ List.insertionSort tsGE store := hperm.mem_iff.mpr hs
      have hsdrop : s ∈ (List.insertionSort tsGE store).drop limit := by
        have hsplit : s ∈ (List.insertionSort tsGE store).take limit ++
            (List.insertionSort tsGE store).drop limit := by
          rw [List.take_append_drop]
          exact hsd
        rcases List.mem_append.mp hsplit with h | h
        · exact absurd h hst
        · exact h
      have hsorted : List.Pairwise tsGE ((List.insertionSort tsGE store).take limit ++
          (List.insertionSort tsGE store).drop limit) := by
        rw [List.take_append_drop]
        exact List.sorted_insertionSort tsGE store
      exact (List.pairwise_append.mp hsorted).2.2 r hrt s hsdrop
    · intro h
      subst h
      simp [List.insertionSort] at hdf

/-- Witness for C9: a two-row store written newest-first; with
`limit = 1` only the newest row (timestamp 2) is returned, ascending,
and the older row is bounded by it. -/
theorem load_data_spec_witness :
    (load_data [⟨2, none, none⟩, ⟨1, none, none⟩] 1).length
        = min 1 [(⟨2, none, none⟩ : Row), ⟨1, none, none⟩].length ∧
    List.Sorted tsLE (load_data [⟨2, none, none⟩, ⟨1, none, none⟩] 1) :=
  ⟨(load_data_spec [⟨2, none, none⟩, ⟨1, none, none⟩] 1).1,
    (load_data_spec [⟨2, none, none⟩, ⟨1, none, none⟩] 1).2.1⟩

/-- The rolling window ending at index `i` holds at most `i + 1`
paired observations. -/
theorem pairWindow_length_le (a b : List (Option ℚ)) (w i : Nat) :
    (pairWindow a b w i).length ≤ i + 1 := by
  unfold pairWindow
  refine le_trans (List.length_filterMap_le _ _) ?_
  rw [List.length_drop, List.length_take]
  omega

/-- Entry `i` of the rolling-correlation series is the window cell at
`i`. -/
theorem compute_rolling_correlation_getElem? (a b : List (Option ℚ)) (w i : Nat)
    (hi : i < a.length) :
    (compute_rolling_correlation a b w)[i]? = some (corrCell a b w i) := by
  unfold compute_rolling_correlation
  rw [List.getElem?_map, List.getElem?_range hi]
  rfl

/-- C3: for aligned return series and window `w ≥ 2`, the
rolling-correlation series is undefined (`NaN`) at every position
`< w - 1`; it is defined at every position `≥ w - 1` whose trailing
window consists of `w` paired observations both of whose coordinate
sub-windows have nonzero (sample) variance; and whenever fewer than
`w` paired observations exist in the trailing window the value is
undefined — `NaN`, not zero. -/
theorem compute_rolling_correlation_definedness (a b : List (Option ℚ)) (w : Nat)
    (hw : 2 ≤ w) (_hab : a.length = b.length) :
    (∀ i, i < w - 1 → i < a.length →
        (compute_rolling_correlation a b w)[i]? = some none) ∧
    (∀ i, w - 1 ≤ i → i < a.length →
        (pairWindow a b w i).length = w →
        sampleVar ((pairWindow a b w i).map Prod.fst) ≠ 0 →
        sampleVar ((pairWindow a b w i).map Prod.snd) ≠ 0 →
        (compute_rolling_correlation a b w)[i]? =
          some (some (sampleCov (pairWindow a b w i),
            sampleVar ((pairWindow a b w i).map Prod.fst),
            sampleVar ((pairWindow a b w i).map Prod.snd)))) ∧
    (∀ i, i < a.length → (pairWindow a b w i).length < w →
        (compute_rolling_correlation a b w)[i]? = some none) := by
  refine ⟨?_, ?_, ?_⟩
  · intro i hiw hi
    rw [compute_rolling_correlation_getElem? a b w i hi]
    have hlen : (pairWindow a b w i).length < w :=
      lt_of_le_of_lt (pairWindow_length_le a b w i) (by omega)
    simp only [corrCell]
    rw [if_pos hlen]
  · intro i _ hi hlen hvA hvB
    rw [compute_rolling_correlation_getElem? a b w i hi]
    simp only [corrCell]
    rw [if_neg (by omega), if_neg (by tauto)]
  · intro i hi hlen
    rw [compute_rolling_correlation_getElem? a b w i hi]
    simp only [corrCell]
    rw [if_pos hlen]

/-- Witness for C3: the return series `[1, 2]` against itself with
window 2.  Position `0 < w - 1` is `NaN`; position `1` has a full
window of 2 defined pairs with variance `1/2 ≠ 0` in each coordinate,
so the correlation is defined there. -/
theorem compute_rolling_correlation_definedness_witness :
    (compute_rolling_correlation [some 1, some 2] [some 1, some 2] 2)[0]? = some none ∧
    (compute_rolling_correlation [some 1, some 2] [some 1, some 2] 2)[1]? =
      some (some (sampleCov (pairWindow [some 1, some 2] [some 1, some 2] 2 1),
        sampleVar ((pairWindow [some 1, some 2] [some 1, some 2] 2 1).map Prod.fst),
        sampleVar ((pairWindow [some 1, some 2] [some 1, some 2] 2 1).map Prod.snd))) := by
  have hpw : (pairWindow [some 1, some 2] [some 1, some 2] 2 1).map Prod.fst = [1, 2] := rfl
  have hpw2 : (pairWindow [some 1, some 2] [some 1, some 2] 2 1).map Prod.snd = [1, 2] := rfl
  have hv : sampleVar [1, 2] ≠ 0 := by norm_num [sampleVar]
  exact ⟨(compute_rolling_correlation_definedness [some 1, some 2] [some 1, some 2] 2
      (by omega) rfl).1 0 (by omega) (by simp),
    (compute_rolling_correlation_definedness [some 1, some 2] [some 1, some 2] 2
      (by omega) rfl).2.1 1 (by omega) (by simp) rfl
      (by rw [hpw]; exact hv) (by rw [hpw2]; exact hv)⟩

/-- Bridge between the rational squared comparison used in the
embedding and the float z-score comparison of the source:
for variance `v > 0` and threshold `t ≥ 0`,
`t² · v < d²` holds iff `t < |d| / √v`. -/
theorem zscore_sq_iff (d v t : ℚ) (hv : 0 < v) (ht : 0 ≤ t) :
    t ^ 2 * v < d ^ 2 ↔ (t : ℝ) < |(d : ℝ)| / Real.sqrt (v : ℝ) := by
  have hvR : (0 : ℝ) < (v : ℝ) := by exact_mod_cast hv
  have hs : 0 < Real.sqrt (v : ℝ) := Real.sqrt_pos.mpr hvR
  rw [lt_div_iff₀ hs]
  constructor
  · intro h
    have h2 : ((t : ℝ) * Real.sqrt (v : ℝ)) ^ 2 < |(d : ℝ)| ^ 2 := by
      rw [mul_pow, Real.sq_sqrt hvR.le, sq_abs]
      exact_mod_cast h
    exact lt_of_pow_lt_pow_left₀ 2 (abs_nonneg _) h2
  · intro h
    have h2 : ((t : ℝ) * Real.sqrt (v : ℝ)) ^ 2 < |(d : ℝ)| ^ 2 :=
      pow_lt_pow_left₀ h (by positivity) (by norm_num)
    rw [mul_pow, Real.sq_sqrt hvR.le, sq_abs] at h2
    exact_mod_cast h2

/-- Control-flow lemma for the main path of `detect_anomalies`: with a
defined mean and a nonzero defined variance, and a defined last
element, the result is the decided threshold comparison. -/
theorem detect_anomalies_main_eq (xs : List (Option ℚ)) (t m v last : ℚ)
    (hm : meanD xs = some m) (hv : varSampleD xs = some v) (hv0 : v ≠ 0)
    (hlast : xs.getLast? = some (some last)) :
    detect_anomalies xs t = some (decide (t < 0 ∨ t ^ 2 * v < (last - m) ^ 2)) := by
  simp only [detect_anomalies, hm, hv, hlast]
  rw [if_neg (by simp [hv0])]

/-- Control-flow lemma: with nonzero defined variance but an undefined
(`NaN`) last element, the z-score is `NaN` and the comparison yields
`False`. -/
theorem detect_anomalies_nan_last (xs : List (Option ℚ)) (t v : ℚ)
    (hv : varSampleD xs = some v) (hv0 : v ≠ 0)
    (hlast : xs.getLast? = some none) :
    detect_anomalies xs t = some false := by
  cases hm : meanD xs with
  | none => simp [detect_anomalies, hm, hv, hlast, hv0]
  | some m => simp [detect_anomalies, hm, hv, hlast, hv0]

/-- C4 (counterexample): the claim asserts the z-score is taken at the
LATEST DEFINED value of the series.  On `[0, 10, NaN]` with threshold
`1/2` the latest defined value is `10`, the mean over defined values
is `5` and the (sample) variance `50`, so the claimed
`z = (10 - 5)/√50 ≈ 0.707` exceeds the threshold and the claim
predicts `is_anomaly = true`; but the code takes `iloc[-1]`, the
`NaN` last entry, so the z-score is `NaN` and the code returns
`False`. -/
theorem detect_anomalies_ignores_latest_defined :
    (definedVals [some 0, some 10, none]).getLast? = some 10 ∧
    meanD [some 0, some 10, none] = some 5 ∧
    varSampleD [some 0, some 10, none] = some 50 ∧
    ((1 : ℝ)/2) < |(10 : ℝ) - 5| / Real.sqrt 50 ∧
    detect_anomalies [some 0, some 10, none] (1/2) = some false := by
  refine ⟨rfl, ?_, ?_, ?_, ?_⟩
  · norm_num [meanD, definedVals, List.filterMap_cons]
  · norm_num [varSampleD, definedVals, List.filterMap_cons]
  · have h50 : Real.sqrt 50 ^ 2 = 50 := Real.sq_sqrt (by norm_num)
    have hpos : 0 < Real.sqrt 50 := Real.sqrt_pos.mpr (by norm_num)
    have habs : |(10 : ℝ) - 5| = 5 := by
      rw [show (10 : ℝ) - 5 = 5 by norm_num]
      exact abs_of_pos (by norm_num)
    rw [habs, lt_div_iff₀ hpos]
    nlinarith [h50, hpos]
  · norm_num [detect_anomalies, meanD, varSampleD, definedVals, List.filterMap_cons,
      List.getLast?]

/-- C4 (amended): for every rolling-correlation series with at least 2
defined values (the sample deviation is then defined) and nonzero
standard deviation, and every threshold `t ≥ 0`: when the LAST element
of the series is defined, `detect_anomalies` returns
`is_anomaly = (|z| > t)` with `z = (last - mean)/std` where mean and
std are taken over all defined values — the z-score is anchored at the
last element (`iloc[-1]`), not at the latest defined value; when the
last element is undefined, it returns `false`.  The threshold defaults
to `2.0` when not supplied. -/
theorem detect_anomalies_zscore_spec (xs : List (Option ℚ)) (t m v : ℚ)
    (hm : meanD xs = some m) (hv : varSampleD xs = some v) (hv0 : v ≠ 0)
    (ht : 0 ≤ t) :
    (∀ last : ℚ, xs.getLast? = some (some last) →
        (detect_anomalies xs t = some true ↔
          (t : ℝ) < |(last : ℝ) - (m : ℝ)| / Real.sqrt (v : ℝ))) ∧
    (xs.getLast? = some none → detect_anomalies xs t = some false) ∧
    detect_anomalies_default xs = detect_anomalies xs 2 := by
  have hvpos : 0 < v := lt_of_le_of_ne (varSampleD_nonneg xs v hv) (Ne.symm hv0)
  refine ⟨?_, fun hlast => detect_anomalies_nan_last xs t v hv hv0 hlast, rfl⟩
  intro last hlast
  rw [detect_anomalies_main_eq xs t m v last hm hv hv0 hlast]
  have hstep : (some (decide (t < 0 ∨ t ^ 2 * v < (last - m) ^ 2)) = some true) ↔
      (t < 0 ∨ t ^ 2 * v < (last - m) ^ 2) := by simp
  rw [hstep]
  have hnt : ¬ t < 0 := not_lt.mpr ht
  simp only [hnt, false_or]
  have hiff := zscore_sq_iff (last - m) v t hvpos ht
  have hcast : |((last - m : ℚ) : ℝ)| = |(last : ℝ) - (m : ℝ)| := by push_cast; rfl
  rw [hcast] at hiff
  exact hiff

/-- Witness for C4's amended theorem: on `[0, 10]` (mean `5`,
variance `50`, defined last element `10`) with threshold `1/2`, the
theorem instantiates to the concrete iff, plus the default-threshold
equation. -/
theorem detect_anomalies_zscore_spec_witness :
    (detect_anomalies [some 0, some 10] (1/2) = some true ↔
      ((1/2 : ℚ) : ℝ) < |((10 : ℚ) : ℝ) - ((5 : ℚ) : ℝ)| / Real.sqrt ((50 : ℚ) : ℝ)) ∧
    detect_anomalies_default [some 0, some 10] = detect_anomalies [some 0, some 10] 2 := by
  have h := detect_anomalies_zscore_spec [some 0, some 10] (1/2) 5 50
    (by norm_num [meanD, definedVals, List.filterMap_cons])
    (by norm_num [varSampleD, definedVals, List.filterMap_cons])
    (by norm_num) (by norm_num)
  exact ⟨h.1 10 rfl, h.2.2⟩
